import Mathlib

/-!
Verification of the PDF.js ↔ React Native bridge (pdf-viewer-pdfjs).

Shallow embedding of the bridge scripts:
* `src/web/PDFjs2RNBridge.mjs` — the embedded-side interceptor
  (`uint8ArrayToBase64`, `sendToReactNative`, `getPDFDataAsBase64`,
  `getFilename`, `overrideDownload`, `overridePrint`, `setupOverrides`,
  the polling fallback of `initializeBridge`, the window-load ready message);
* `src/unnamed/part_000` — the host-side `receivedFromWebView` handler and
  the injected `setupPDFControls` script;
* `src/unnamed/part_006` — the file-input base64 decode loop
  (`atob` + `charCodeAt`).

JS strings are modelled as `List Char` where their contents matter and as
`String` for fixed command tags; `Uint8Array` values are lists (or arrays)
of `Nat` below 256; JS `undefined`/absence is `Option`; thrown exceptions
are `Except`.
-/

namespace PDFBridge

/-! ### Base64 primitives (the browser's `btoa`/`atob` on latin1 strings) -/

/-- The base64 alphabet: sextet value to ASCII code. -/
def b64Char (n : Nat) : Nat :=
  if n < 26 then 65 + n
  else if n < 52 then 97 + (n - 26)
  else if n < 62 then 48 + (n - 52)
  else if n = 62 then 43
  else 47

/-- Inverse of the base64 alphabet: ASCII code to sextet value. -/
def b64Value (c : Nat) : Nat :=
  if 65 ≤ c ∧ c ≤ 90 then c - 65
  else if 97 ≤ c ∧ c ≤ 122 then c - 97 + 26
  else if 48 ≤ c ∧ c ≤ 57 then c - 48 + 52
  else if c = 43 then 62
  else 63

/-- `btoa`: encode a latin1 string (char codes below 256) as base64
(ASCII codes), 3 bytes to 4 chars, `=` (code 61) padding. -/
def btoa : List Nat → List Nat
  | [] => []
  | [a] => [b64Char (a / 4), b64Char (a % 4 * 16), 61, 61]
  | [a, b] => [b64Char (a / 4), b64Char (a % 4 * 16 + b / 16), b64Char (b % 16 * 4), 61]
  | a :: b :: c :: rest =>
      b64Char (a / 4) :: b64Char (a % 4 * 16 + b / 16) ::
      b64Char (b % 16 * 4 + c / 64) :: b64Char (c % 64) :: btoa rest

/-- `atob`: decode base64 (ASCII codes) back to a latin1 string
(char codes), 4 chars to 3 bytes, stopping at `=` padding. -/
def atob : List Nat → List Nat
  | c1 :: c2 :: c3 :: c4 :: rest =>
      if c3 = 61 then
        [b64Value c1 * 4 + b64Value c2 / 16]
      else if c4 = 61 then
        [b64Value c1 * 4 + b64Value c2 / 16,
         b64Value c2 % 16 * 16 + b64Value c3 / 4]
      else
        (b64Value c1 * 4 + b64Value c2 / 16) ::
        (b64Value c2 % 16 * 16 + b64Value c3 / 4) ::
        (b64Value c3 % 4 * 64 + b64Value c4) :: atob rest
  | _ => []

/-! ### The chunked encoder `uint8ArrayToBase64` (PDFjs2RNBridge.mjs 19–29)

The loop `for (let i = 0; i < uint8Array.length; i += chunkSize)` takes
`subarray(i, i + 0x8000)` slices; `String.fromCharCode.apply` turns each
slice into a string whose char codes are the slice's bytes, the strings are
joined and passed to `btoa`. -/

/-- The 0x8000-byte chunk size of `uint8ArrayToBase64`. -/
def chunkSize : Nat := 0x8000

/-- The chunking loop: successive `subarray(i, i + chunkSize)` slices
(as `String.fromCharCode` keeps the byte values as char codes, a slice is
its own latin1 string). -/
def toB64Chunks : List Nat → List (List Nat)
  | [] => []
  | l@(_ :: _) => l.take chunkSize :: toB64Chunks (l.drop chunkSize)
termination_by l => l.length
decreasing_by subst_vars; simp [chunkSize]; omega

/-- `uint8ArrayToBase64` (PDFjs2RNBridge.mjs 19–29): chunk, join, `btoa`. -/
def uint8ArrayToBase64 (uint8Array : List Nat) : List Nat :=
  btoa (toB64Chunks uint8Array).flatten

/-- The file-input decode of `startPDFViewer` (part_006 33–37):
`raw = atob(base64)` and then the loop `uint8Array[i] = raw.charCodeAt(i)`
for `i < raw.length`. -/
def fileInputDecode (base64 : List Nat) : List Nat :=
  let raw := atob base64
  (List.range raw.length).map (fun i => raw.getD i 0)

/-! ### JS value and renderer-application model -/

/-- A dynamic JS value as far as the bridge inspects it: either a
`Uint8Array` (the `data instanceof Uint8Array` check) or anything else. -/
inductive JSValue where
  | bytes (data : List Nat)
  | other
deriving DecidableEq

def JSValue.isBytes : JSValue → Bool
  | JSValue.bytes _ => true
  | JSValue.other => false

/-- `app.pdfDocument` as the bridge inspects it: each extraction source is
`some v` when the method (or the `_transport.data` property, truthy) is
available, carrying the value it yields. -/
structure PDFDoc where
  saveDocument : Option JSValue
  getData : Option JSValue
  transportData : Option JSValue
deriving DecidableEq

/-- Function objects stored in `app.download` / `app.print`. -/
inductive Fn where
  | libDownload
  | libPrint
  | ovDownload
  | ovPrint
deriving DecidableEq

/-- `window.PDFViewerApplication` as the bridge inspects it. JS strings are
`List Char`; `pdfDocumentProperties` is two-level (`none` = the properties
object itself is absent/falsy, `some none` = no `title` property). -/
structure AppObj where
  pdfDocument : Option PDFDoc
  url : Option (List Char)
  pdfDocumentProperties : Option (Option (List Char))
  download : Option Fn
  print : Option Fn
  originalDownload : Option Fn
  originalPrint : Option Fn
  initialized : Bool
deriving DecidableEq

/-- Capturing click listeners attached by `setupToolbarOverrides`. -/
inductive ToolbarListener where
  | download
  | print
  | secondaryDownload
  | secondaryPrint
deriving DecidableEq

/-- The `window` state the bridge reads and mutates: the application
object, the two boundary channels (`ReactNativeWebView.postMessage`,
`parent.postMessage`), which toolbar buttons exist, and the attached
listeners. -/
structure Win where
  app : Option AppObj
  reactNativeAvailable : Bool
  parentAvailable : Bool
  downloadButton : Bool
  printButton : Bool
  secondaryDownloadButton : Bool
  secondaryPrintButton : Bool
  listeners : List ToolbarListener
deriving DecidableEq

/-- An envelope handed to the boundary channel. -/
structure Message where
  command : String
  base64 : Option (List Nat)
  filename : Option (List Char)
  message : Option String
deriving DecidableEq

/-- Observable effects of the embedded-side wrappers. -/
inductive Event where
  | sent (m : Message)
  | origDownloadCall
  | origPrintCall
deriving DecidableEq

/-- `sendToReactNative` (PDFjs2RNBridge.mjs 32–48): post via
`ReactNativeWebView` when available, else via `window.parent`, returning
whether the message was sent, together with the transmission trace. -/
def sendToReactNative (w : Win) (m : Message) : Bool × List Event :=
  if w.reactNativeAvailable then (true, [Event.sent m])
  else if w.parentAvailable then (true, [Event.sent m])
  else (false, [])

/-- The strategy cascade inside `getPDFDataAsBase64`
(PDFjs2RNBridge.mjs 62–78): `saveDocument()`, else `getData()`, else
`_transport.data`, else throw. -/
def extractDocData (doc : PDFDoc) : Except String JSValue :=
  match doc.saveDocument with
  | some v => Except.ok v
  | none =>
    match doc.getData with
    | some v => Except.ok v
    | none =>
      match doc.transportData with
      | some v => Except.ok v
      | none => Except.error "No method available to extract PDF data"

/-- `getPDFDataAsBase64` (PDFjs2RNBridge.mjs 51–89): throw when the
application or its document is missing, run the strategy cascade, check
`data instanceof Uint8Array`, encode. -/
def getPDFDataAsBase64 (app? : Option AppObj) : Except String (List Nat) :=
  match app? with
  | none => Except.error "PDF document not available"
  | some app =>
    match app.pdfDocument with
    | none => Except.error "PDF document not available"
    | some doc =>
      match extractDocData doc with
      | Except.error e => Except.error e
      | Except.ok (JSValue.bytes data) => Except.ok (uint8ArrayToBase64 data)
      | Except.ok JSValue.other => Except.error "Invalid PDF data format"

/-! ### Filename selection (`getFilename`, PDFjs2RNBridge.mjs 92–111) -/

/-- JS `String.prototype.split` with a single-character separator. -/
def splitOnChar (c : Char) : List Char → List (List Char)
  | [] => [[]]
  | x :: xs =>
    let r := splitOnChar c xs
    if x = c then [] :: r
    else
      match r with
      | [] => [[x]]
      | h :: t => (x :: h) :: t

/-- Does `sub` start the string `s`? -/
def startsWith : List Char → List Char → Bool
  | _, [] => true
  | [], _ :: _ => false
  | x :: xs, y :: ys => x = y && startsWith xs ys

/-- JS `String.prototype.includes`: `sub` occurs contiguously in `s`. -/
def includesSub : List Char → List Char → Bool
  | [], sub => startsWith [] sub
  | x :: xs, sub => startsWith (x :: xs) sub || includesSub xs sub

/-- `urlFilename.includes('.pdf')`. -/
def includesPdf (s : List Char) : Bool := includesSub s ['.', 'p', 'd', 'f']

/-- The `filename` variable of `getFilename` after the `app.url` block:
`'document.pdf'`, replaced by the last `'/'`-segment of a truthy `app.url`
when that segment is truthy and contains `'.pdf'` (JS truthiness of a
string is non-emptiness). -/
def initialFilename (url : Option (List Char)) : List Char :=
  match url with
  | some u =>
    if u.isEmpty then "document.pdf".toList
    else
      let urlParts := splitOnChar '/' u
      let urlFilename := urlParts.getLastD []
      if !urlFilename.isEmpty && includesPdf urlFilename then urlFilename
      else "document.pdf".toList
  | none => "document.pdf".toList

/-- The body of `getFilename` given the application object: the URL block,
then replace by `title + '.pdf'` when `pdfDocumentProperties` and its
`title` are truthy. -/
def getFilenameOf (app : AppObj) : List Char :=
  let filename1 := initialFilename app.url
  match app.pdfDocumentProperties with
  | some (some t) => if t.isEmpty then filename1 else t ++ ".pdf".toList
  | _ => filename1

/-- `getFilename` reads the global application object; when it is absent
the very first access `app.url` throws a `TypeError`. -/
def getFilename (app? : Option AppObj) : Except String (List Char) :=
  match app? with
  | none => Except.error "TypeError: app is undefined"
  | some app => Except.ok (getFilenameOf app)

/-! ### The save/print wrappers (PDFjs2RNBridge.mjs 114–167) -/

/-- The `try` block of `overrideDownload`: extraction, then filename, then
`sendToReactNative` with the `save` envelope, propagating any throw. -/
def tryDownloadSend (w : Win) : Except String (Bool × List Event) :=
  match getPDFDataAsBase64 w.app with
  | Except.error e => Except.error e
  | Except.ok base64Data =>
    match getFilename w.app with
    | Except.error e => Except.error e
    | Except.ok filename =>
      Except.ok (sendToReactNative w
        { command := "save", base64 := some base64Data,
          filename := some filename, message := none })

/-- `overrideDownload`: run the `try` block; a successful send returns at
once; otherwise (send returned false, or anything threw and was caught)
fall back to `originalDownload` when present. The fallback reads
`window.PDFViewerApplication.originalDownload` outside the `try`, so it
throws when the application object is absent. -/
def overrideDownload (w : Win) : Except String (List Event) :=
  match tryDownloadSend w with
  | Except.ok (true, evs) => Except.ok evs
  | Except.ok (false, evs) =>
    match w.app with
    | none => Except.error "TypeError: PDFViewerApplication is undefined"
    | some app =>
      Except.ok (evs ++ if app.originalDownload.isSome then [Event.origDownloadCall] else [])
  | Except.error _ =>
    match w.app with
    | none => Except.error "TypeError: PDFViewerApplication is undefined"
    | some app =>
      Except.ok (if app.originalDownload.isSome then [Event.origDownloadCall] else [])

/-- The `try` block of `overridePrint`: as for download, with the `print`
envelope. -/
def tryPrintSend (w : Win) : Except String (Bool × List Event) :=
  match getPDFDataAsBase64 w.app with
  | Except.error e => Except.error e
  | Except.ok base64Data =>
    match getFilename w.app with
    | Except.error e => Except.error e
    | Except.ok filename =>
      Except.ok (sendToReactNative w
        { command := "print", base64 := some base64Data,
          filename := some filename, message := none })

/-- `overridePrint` (PDFjs2RNBridge.mjs 142–167): same shape as
`overrideDownload` with the `print` command and `originalPrint`. -/
def overridePrint (w : Win) : Except String (List Event) :=
  match tryPrintSend w with
  | Except.ok (true, evs) => Except.ok evs
  | Except.ok (false, evs) =>
    match w.app with
    | none => Except.error "TypeError: PDFViewerApplication is undefined"
    | some app =>
      Except.ok (evs ++ if app.originalPrint.isSome then [Event.origPrintCall] else [])
  | Except.error _ =>
    match w.app with
    | none => Except.error "TypeError: PDFViewerApplication is undefined"
    | some app =>
      Except.ok (if app.originalPrint.isSome then [Event.origPrintCall] else [])

/-! ### Override installation (PDFjs2RNBridge.mjs 170–250) -/

/-- `setupToolbarOverrides`: attach one capturing click listener to each
toolbar button that exists. -/
def setupToolbarOverrides (w : Win) : Win :=
  let l1 := if w.downloadButton then [ToolbarListener.download] else []
  let l2 := if w.printButton then [ToolbarListener.print] else []
  let l3 := if w.secondaryDownloadButton then [ToolbarListener.secondaryDownload] else []
  let l4 := if w.secondaryPrintButton then [ToolbarListener.secondaryPrint] else []
  { w with listeners := w.listeners ++ l1 ++ l2 ++ l3 ++ l4 }

/-- `setupOverrides`: bail out (returning false, touching nothing) when the
application object is missing or when neither boundary channel exists;
otherwise save and replace the `download`/`print` entry points that are
functions, attach the toolbar listeners, and return true. -/
def setupOverrides (w : Win) : Win × Bool :=
  match w.app with
  | none => (w, false)
  | some app =>
    if ¬ (w.reactNativeAvailable ∨ w.parentAvailable) then (w, false)
    else
      let app1 :=
        if app.download.isSome then
          { app with originalDownload := app.download, download := some Fn.ovDownload }
        else app
      let app2 :=
        if app1.print.isSome then
          { app1 with originalPrint := app1.print, print := some Fn.ovPrint }
        else app1
      (setupToolbarOverrides { w with app := some app2 }, true)

/-! ### Host-side receive handler (`receivedFromWebView`, part_000 146–246) -/

/-- The fields of a deserialized inbound envelope that the handler reads
(each possibly absent on the dynamic JS object). -/
structure InboundData where
  command : Option String
  base64 : Option String
  filename : Option String
  message : Option String
deriving DecidableEq

/-- Host-side effects of `receivedFromWebView`. -/
inductive HostAction where
  | logReceived
  | logReadySignal
  | logDebug (msg : String)
  | saveToDownloads (filename : Option String) (base64 : Option String)
  | printNative (filename : Option String) (base64 : Option String)
  | sharePDF (filename : Option String) (base64 : Option String)
  | warnInvalidJSON
deriving DecidableEq

/-- The command dispatch on successfully parsed inbound data: log the
receipt, log `ready`, log `debug` with its message, and run the
save/print/share switch. -/
def dispatchInbound (d : InboundData) : List HostAction :=
  [HostAction.logReceived] ++
  (if d.command = some "ready" then [HostAction.logReadySignal] else []) ++
  (if d.command = some "debug" then [HostAction.logDebug (d.message.getD "")] else []) ++
  (if d.command = some "save" ∨ d.command = some "print" ∨ d.command = some "share" then
    match d.command with
    | some "save" => [HostAction.saveToDownloads d.filename d.base64]
    | some "print" => [HostAction.printNative d.filename d.base64]
    | some "share" => [HostAction.sharePDF d.filename d.base64]
    | _ => []
   else [])

/-- `receivedFromWebView`: `JSON.parse` runs inside `try`; a parse failure
is logged with `console.warn` and the message is discarded. The parse
itself is the platform primitive, so the handler is embedded over its
outcome. -/
def receivedFromWebView (parsed : Except String InboundData) : List HostAction :=
  match parsed with
  | Except.error _ => [HostAction.warnInvalidJSON]
  | Except.ok d => dispatchInbound d

/-! ### Polling fallback of `initializeBridge` (PDFjs2RNBridge.mjs 281–296) -/

/-- `maxAttempts` of the polling fallback. -/
def maxAttempts : Nat := 20

/-- The `setInterval` period of the polling fallback, in milliseconds. -/
def pollIntervalMs : Nat := 500

/-- State of the polling loop: the `attempts` counter, whether
`clearInterval` has run, and whether `setupOverrides` was invoked by the
poller. -/
structure PollState where
  attempts : Nat
  cleared : Bool
  setupRan : Bool
deriving DecidableEq

/-- One interval tick. A cleared interval no longer fires. Otherwise:
increment `attempts`; above `maxAttempts`, clear and give up; else when
`window.PDFViewerApplication && window.PDFViewerApplication.initialized`,
clear and run `setupOverrides`. -/
def pollTick (rendererReady : Bool) (s : PollState) : PollState :=
  if s.cleared then s
  else
    let attempts := s.attempts + 1
    if attempts > maxAttempts then
      { attempts := attempts, cleared := true, setupRan := s.setupRan }
    else if rendererReady then
      { attempts := attempts, cleared := true, setupRan := true }
    else
      { attempts := attempts, cleared := false, setupRan := s.setupRan }

/-- The polling loop after `n` ticks, where `rendererReady i` says whether
the renderer application existed and was initialized at tick `i`. -/
def runPoll (rendererReady : Nat → Bool) : Nat → PollState
  | 0 => { attempts := 0, cleared := false, setupRan := false }
  | n + 1 => pollTick (rendererReady n) (runPoll rendererReady n)

/-! ### State-threaded encoder for the frame property (C9) -/

/-- `uint8Array.subarray(i, j)` as a state-passing read: it returns the
array state (a subarray is a view, creating it writes nothing) together
with the bytes read through the view by `String.fromCharCode.apply`. -/
def subarrayRead (arr : Array Nat) (i j : Nat) : Array Nat × List Nat :=
  (arr, (arr.extract i j).toList)

/-- The encoder loop of `uint8ArrayToBase64`, threading the array state
through every array operation it performs. The structural `fuel` bounds
the iteration count; `arr.size + 1` is ample, since the index advances by
`chunkSize ≥ 1` per iteration. -/
def encodeChunksFuel : Nat → Array Nat → Nat → Array Nat × List (List Nat)
  | 0, arr, _ => (arr, [])
  | fuel + 1, arr, i =>
    if i < arr.size then
      let st := subarrayRead arr i (i + chunkSize)
      let rest := encodeChunksFuel fuel st.1 (i + chunkSize)
      (rest.1, st.2 :: rest.2)
    else (arr, [])

/-- `uint8ArrayToBase64` with the array state made explicit: the final
array state alongside the produced base64 text. -/
def uint8ArrayToBase64St (arr : Array Nat) : Array Nat × List Nat :=
  let r := encodeChunksFuel (arr.size + 1) arr 0
  (r.1, btoa r.2.flatten)

/-! ### `ready` emission sites (C5) -/

/-- The `ready` envelope. -/
def readyMsg : Message :=
  { command := "ready", base64 := none, filename := none, message := none }

/-- A `debug` envelope. -/
def debugMsg (s : String) : Message :=
  { command := "debug", base64 := none, filename := none, message := some s }

/-- The two code sites that emit `ready`: the bridge module's `window`
load listener (PDFjs2RNBridge.mjs 302–307) and the injected
`setupPDFControls` (part_000 324–455). -/
inductive EmbeddedEmitter where
  | bridgeLoadTimer
  | controlsSetup
deriving DecidableEq

/-- The envelopes an emission site hands to the channel, given whether the
renderer application (with its event bus) is initialized at that moment:
the load-listener timer sends `ready` unconditionally; `setupPDFControls`
checks `window.PDFViewerApplication && window.PDFViewerApplication.eventBus`
and otherwise only schedules a retry. -/
def emittedMessages (rendererInitialized : Bool) : EmbeddedEmitter → List Message
  | EmbeddedEmitter.bridgeLoadTimer => [readyMsg]
  | EmbeddedEmitter.controlsSetup =>
    if rendererInitialized then
      [debugMsg "PDF.js viewer ready, setting up controls...",
       debugMsg "PDF controls configured",
       readyMsg]
    else []

/-- The envelopes actually transmitted across the boundary: each send goes
through when a channel is available. -/
def transmittedMessages (w : Win) (rendererInitialized : Bool) (e : EmbeddedEmitter) :
    List Message :=
  if w.reactNativeAvailable ∨ w.parentAvailable then emittedMessages rendererInitialized e
  else []

/-! ### Claim-side filename specifications (C6) -/

/-- The URL part of the claimed filename rule: the last path segment of
the source URL when that segment contains `.pdf`, else `document.pdf`. -/
def filenameFromUrlSpec (url : Option (List Char)) : List Char :=
  match url with
  | none => "document.pdf".toList
  | some u =>
    let seg := (splitOnChar '/' u).getLastD []
    if includesPdf seg then seg else "document.pdf".toList

/-- C6 as stated: the title field if present (with `.pdf` appended), else
the URL rule. -/
def filenameClaimSpec (title : Option (List Char)) (url : Option (List Char)) : List Char :=
  match title with
  | some t => t ++ ".pdf".toList
  | none => filenameFromUrlSpec url

/-- C6 amended: a present title is used only when it is non-empty
(JS truthiness of `app.pdfDocumentProperties.title`). -/
def filenameAmendedSpec (title : Option (List Char)) (url : Option (List Char)) : List Char :=
  match title with
  | some t => if t.isEmpty then filenameFromUrlSpec url else t ++ ".pdf".toList
  | none => filenameFromUrlSpec url

/-- The title field of the document metadata: present exactly when the
properties object exists and carries a `title`. -/
def titleOf (app : AppObj) : Option (List Char) :=
  match app.pdfDocumentProperties with
  | some (some t) => some t
  | _ => none

/-- The preference order claimed in C4, as one `Option` cascade. -/
def preferredSource (doc : PDFDoc) : Option JSValue :=
  (doc.saveDocument.or doc.getData).or doc.transportData

/-- A concrete application object whose document properties carry an empty
title: the C6 counterexample input. -/
def emptyTitleApp : AppObj :=
  { pdfDocument := none, url := none, pdfDocumentProperties := some (some []),
    download := none, print := none, originalDownload := none,
    originalPrint := none, initialized := false }

/-- An application object with no loaded document (witness input). -/
def noDocApp : AppObj :=
  { pdfDocument := none, url := none, pdfDocumentProperties := none,
    download := some Fn.libDownload, print := some Fn.libPrint,
    originalDownload := some Fn.libDownload, originalPrint := some Fn.libPrint,
    initialized := true }

/-- A window with the React Native channel available (witness input). -/
def rnWin (a : Option AppObj) : Win :=
  { app := a, reactNativeAvailable := true, parentAvailable := false,
    downloadButton := true, printButton := true,
    secondaryDownloadButton := false, secondaryPrintButton := false,
    listeners := [] }

/-- A window with no boundary channel at all (witness input). -/
def noChannelWin (a : Option AppObj) : Win :=
  { app := a, reactNativeAvailable := false, parentAvailable := false,
    downloadButton := true, printButton := true,
    secondaryDownloadButton := false, secondaryPrintButton := false,
    listeners := [] }

/-- A document offering only `saveDocument`, yielding bytes
(witness input). -/
def saveOnlyDoc : PDFDoc :=
  { saveDocument := some (JSValue.bytes [1, 2, 3]), getData := none,
    transportData := none }

/-- An application object with `saveOnlyDoc` loaded (witness input). -/
def saveOnlyApp : AppObj :=
  { pdfDocument := some saveOnlyDoc, url := none, pdfDocumentProperties := none,
    download := some Fn.libDownload, print := some Fn.libPrint,
    originalDownload := some Fn.libDownload, originalPrint := some Fn.libPrint,
    initialized := true }

/-! ### Round-trip lemmas for C1 -/

theorem b64Value_b64Char_fin : ∀ s : Fin 64, b64Value (b64Char s.val) = s.val ∧ b64Char s.val ≠ 61 := by
  decide

theorem b64Value_b64Char {s : Nat} (h : s < 64) : b64Value (b64Char s) = s :=
  (b64Value_b64Char_fin ⟨s, h⟩).1

theorem b64Char_ne_pad {s : Nat} (h : s < 64) : b64Char s ≠ 61 :=
  (b64Value_b64Char_fin ⟨s, h⟩).2

theorem atob_btoa (l : List Nat) (h : ∀ b ∈ l, b < 256) : atob (btoa l) = l := by
  induction l using btoa.induct with
  | case1 => simp [btoa, atob]
  | case2 a =>
      have ha : a < 256 := h a (by simp)
      have h1 : a / 4 < 64 := by omega
      have h2 : a % 4 * 16 < 64 := by omega
      simp only [btoa, atob]
      rw [b64Value_b64Char h1, b64Value_b64Char h2]
      have e1 : a / 4 * 4 + a % 4 * 16 / 16 = a := by omega
      rw [e1]
      simp
  | case3 a b =>
      have ha : a < 256 := h a (by simp)
      have hb : b < 256 := h b (by simp)
      have h1 : a / 4 < 64 := by omega
      have h2 : a % 4 * 16 + b / 16 < 64 := by omega
      have h3 : b % 16 * 4 < 64 := by omega
      simp only [btoa, atob, if_neg (b64Char_ne_pad h3)]
      rw [b64Value_b64Char h1, b64Value_b64Char h2, b64Value_b64Char h3]
      have e1 : a / 4 * 4 + (a % 4 * 16 + b / 16) / 16 = a := by omega
      have e2 : (a % 4 * 16 + b / 16) % 16 * 16 + b % 16 * 4 / 4 = b := by omega
      rw [e1, e2]
      simp
  | case4 a b c rest ih =>
      have ha : a < 256 := h a (by simp)
      have hb : b < 256 := h b (by simp)
      have hc : c < 256 := h c (by simp)
      have h1 : a / 4 < 64 := by omega
      have h2 : a % 4 * 16 + b / 16 < 64 := by omega
      have h3 : b % 16 * 4 + c / 64 < 64 := by omega
      have h4 : c % 64 < 64 := by omega
      simp only [btoa, atob, if_neg (b64Char_ne_pad h3), if_neg (b64Char_ne_pad h4)]
      rw [b64Value_b64Char h1, b64Value_b64Char h2, b64Value_b64Char h3, b64Value_b64Char h4]
      have e1 : a / 4 * 4 + (a % 4 * 16 + b / 16) / 16 = a := by omega
      have e2 : (a % 4 * 16 + b / 16) % 16 * 16 + (b % 16 * 4 + c / 64) / 4 = b := by omega
      have e3 : (b % 16 * 4 + c / 64) % 4 * 64 + c % 64 = c := by omega
      rw [e1, e2, e3, ih (fun x hx => h x (by simp [hx]))]

theorem toB64Chunks_flatten (l : List Nat) : (toB64Chunks l).flatten = l := by
  induction l using toB64Chunks.induct with
  | case1 => simp [toB64Chunks]
  | case2 x xs ih =>
      rw [toB64Chunks, List.flatten_cons, ih, List.take_append_drop]

theorem range_map_getD (raw : List Nat) :
    (List.range raw.length).map (fun i => raw.getD i 0) = raw := by
  induction raw with
  | nil => simp
  | cons x xs ih =>
      rw [List.length_cons, List.range_succ_eq_map]
      have hcomp : ((fun i => (x :: xs).getD i 0) ∘ Nat.succ) = fun i => xs.getD i 0 := by
        funext i
        simp [Function.comp, List.getD_cons_succ]
      simp only [List.map_cons, List.map_map, hcomp, List.getD_cons_zero]
      rw [ih]

theorem fileInputDecode_atob (base64 : List Nat) : fileInputDecode base64 = atob base64 :=
  range_map_getD (atob base64)

/-- C1: for every byte buffer (all values below 256) — in particular of
length 0, 1, and any N above the 0x8000 chunk size — encoding with the
chunked `uint8ArrayToBase64` and decoding with the `atob`/`charCodeAt`
file-input loop reproduces the exact original byte sequence. -/
theorem c1_chunked_base64_roundtrip (l : List Nat) (h : ∀ b ∈ l, b < 256) :
    fileInputDecode (uint8ArrayToBase64 l) = l := by
  rw [fileInputDecode_atob, uint8ArrayToBase64, toB64Chunks_flatten, atob_btoa l h]

/-- C1 witness: the round trip at buffers of length 0, length 1, and
length 100000 (above the 32768-byte chunk size). -/
theorem c1_chunked_base64_roundtrip_witness :
    fileInputDecode (uint8ArrayToBase64 []) = [] ∧
    fileInputDecode (uint8ArrayToBase64 [137]) = [137] ∧
    fileInputDecode (uint8ArrayToBase64 (List.replicate 100000 65)) = List.replicate 100000 65 := by
  refine ⟨c1_chunked_base64_roundtrip [] ?_, c1_chunked_base64_roundtrip [137] ?_,
    c1_chunked_base64_roundtrip (List.replicate 100000 65) ?_⟩
  · simp
  · simp
  · intro b hb
    rw [List.eq_of_mem_replicate hb]
    omega

/-! ### C2: no document means no save/print envelope and no throw -/

/-- C2: while no document is loaded (the application object exists but its
`pdfDocument` is absent), neither wrapper transmits any envelope — in
particular none with command `save` or `print` — and neither wrapper lets
an exception escape. -/
theorem c2_no_document_no_envelope_no_throw (w : Win) (a : AppObj)
    (h1 : w.app = some a) (h2 : a.pdfDocument = none) :
    (∃ evs, overrideDownload w = Except.ok evs ∧ ∀ m, Event.sent m ∈ evs → False) ∧
    (∃ evs, overridePrint w = Except.ok evs ∧ ∀ m, Event.sent m ∈ evs → False) := by
  have hget : getPDFDataAsBase64 (some a) = Except.error "PDF document not available" := by
    simp [getPDFDataAsBase64, h2]
  constructor
  · refine ⟨if a.originalDownload.isSome then [Event.origDownloadCall] else [], ?_, ?_⟩
    · simp [overrideDownload, tryDownloadSend, hget, h1]
    · intro m hm
      by_cases hc : a.originalDownload.isSome <;> simp [hc] at hm
  · refine ⟨if a.originalPrint.isSome then [Event.origPrintCall] else [], ?_, ?_⟩
    · simp [overridePrint, tryPrintSend, hget, h1]
    · intro m hm
      by_cases hc : a.originalPrint.isSome <;> simp [hc] at hm

/-- C2 witness: a React-Native window whose application has no document. -/
theorem c2_no_document_witness :
    (rnWin (some noDocApp)).app = some noDocApp ∧ noDocApp.pdfDocument = none ∧
    ((∃ evs, overrideDownload (rnWin (some noDocApp)) = Except.ok evs ∧
        ∀ m, Event.sent m ∈ evs → False) ∧
     (∃ evs, overridePrint (rnWin (some noDocApp)) = Except.ok evs ∧
        ∀ m, Event.sent m ∈ evs → False)) :=
  ⟨rfl, rfl, c2_no_document_no_envelope_no_throw (rnWin (some noDocApp)) noDocApp rfl rfl⟩

/-! ### C3: unreachable channel means single fallback, no transmission -/

/-- C3: when neither boundary channel is reachable, each wrapper ends in a
trace that invokes the saved original entry point exactly once and
contains no transmission at all (and no exception escapes). -/
theorem c3_unreachable_channel_single_fallback (w : Win) (a : AppObj)
    (h1 : w.app = some a)
    (h2 : w.reactNativeAvailable = false) (h3 : w.parentAvailable = false)
    (h4 : a.originalDownload.isSome = true) (h5 : a.originalPrint.isSome = true) :
    overrideDownload w = Except.ok [Event.origDownloadCall] ∧
    overridePrint w = Except.ok [Event.origPrintCall] := by
  constructor
  · cases hget : getPDFDataAsBase64 (some a) with
    | error e => simp [overrideDownload, tryDownloadSend, hget, h1, h4]
    | ok b =>
      simp [overrideDownload, tryDownloadSend, hget, h1, getFilename,
        sendToReactNative, h2, h3, h4]
  · cases hget : getPDFDataAsBase64 (some a) with
    | error e => simp [overridePrint, tryPrintSend, hget, h1, h5]
    | ok b =>
      simp [overridePrint, tryPrintSend, hget, h1, getFilename,
        sendToReactNative, h2, h3, h5]

/-- C3 witness: a channel-less window with a loaded document and saved
originals. -/
theorem c3_unreachable_channel_witness :
    (noChannelWin (some saveOnlyApp)).reactNativeAvailable = false ∧
    (noChannelWin (some saveOnlyApp)).parentAvailable = false ∧
    (overrideDownload (noChannelWin (some saveOnlyApp)) =
      Except.ok [Event.origDownloadCall] ∧
     overridePrint (noChannelWin (some saveOnlyApp)) =
      Except.ok [Event.origPrintCall]) :=
  ⟨rfl, rfl,
    c3_unreachable_channel_single_fallback (noChannelWin (some saveOnlyApp))
      saveOnlyApp rfl rfl rfl rfl rfl⟩

/-! ### C4: extraction strategy order and failure condition -/

/-- C4: the extraction tries `saveDocument`, then `getData`, then the
transport buffer, in that fixed order, and `getPDFDataAsBase64` throws
exactly when no source is available or the selected value is not a byte
buffer. -/
theorem c4_extraction_order_and_failure (app : AppObj) (doc : PDFDoc)
    (h : app.pdfDocument = some doc) :
    (∀ v, doc.saveDocument = some v → extractDocData doc = Except.ok v) ∧
    (doc.saveDocument = none → ∀ v, doc.getData = some v →
      extractDocData doc = Except.ok v) ∧
    (doc.saveDocument = none → doc.getData = none →
      ∀ v, doc.transportData = some v → extractDocData doc = Except.ok v) ∧
    ((∃ e, getPDFDataAsBase64 (some app) = Except.error e) ↔
      preferredSource doc = none ∨
        ∃ v, preferredSource doc = some v ∧ v.isBytes = false) := by
  refine ⟨?_, ?_, ?_, ?_⟩
  · intro v hv
    simp [extractDocData, hv]
  · intro h0 v hv
    simp [extractDocData, h0, hv]
  · intro h0 h1 v hv
    simp [extractDocData, h0, h1, hv]
  · cases hs : doc.saveDocument with
    | some v =>
      cases v <;> simp [getPDFDataAsBase64, h, extractDocData, preferredSource,
        hs, Option.or, JSValue.isBytes]
    | none =>
      cases hg : doc.getData with
      | some v =>
        cases v <;> simp [getPDFDataAsBase64, h, extractDocData, preferredSource,
          hs, hg, Option.or, JSValue.isBytes]
      | none =>
        cases ht : doc.transportData with
        | some v =>
          cases v <;> simp [getPDFDataAsBase64, h, extractDocData, preferredSource,
            hs, hg, ht, Option.or, JSValue.isBytes]
        | none =>
          simp [getPDFDataAsBase64, h, extractDocData, preferredSource,
            hs, hg, ht, Option.or, JSValue.isBytes]

/-- C4 witness: the application holding the saveDocument-only document. -/
theorem c4_extraction_witness :
    saveOnlyApp.pdfDocument = some saveOnlyDoc ∧
    ((∀ v, saveOnlyDoc.saveDocument = some v →
        extractDocData saveOnlyDoc = Except.ok v) ∧
     (saveOnlyDoc.saveDocument = none → ∀ v, saveOnlyDoc.getData = some v →
        extractDocData saveOnlyDoc = Except.ok v) ∧
     (saveOnlyDoc.saveDocument = none → saveOnlyDoc.getData = none →
        ∀ v, saveOnlyDoc.transportData = some v →
          extractDocData saveOnlyDoc = Except.ok v) ∧
     ((∃ e, getPDFDataAsBase64 (some saveOnlyApp) = Except.error e) ↔
        preferredSource saveOnlyDoc = none ∨
          ∃ v, preferredSource saveOnlyDoc = some v ∧ v.isBytes = false)) :=
  ⟨rfl, c4_extraction_order_and_failure saveOnlyApp saveOnlyDoc rfl⟩

/-! ### C7: deserialization failure is logged and discarded -/

/-- C7: for every raw inbound message whose deserialization fails, the
host-side handler produces only the `console.warn` log — it dispatches
nothing and throws nothing to its caller. -/
theorem c7_parse_failure_logged_discarded (e : String) :
    receivedFromWebView (Except.error e) = [HostAction.warnInvalidJSON] := rfl

/-! ### C10: no channel at installation time means a no-op -/

/-- C10: when neither boundary channel exists, `setupOverrides` returns
false and leaves the window untouched: the `download`/`print` entry points
keep their previous (library) values and no toolbar listener is added. -/
theorem c10_no_channel_setup_noop (w : Win)
    (h1 : w.reactNativeAvailable = false) (h2 : w.parentAvailable = false) :
    setupOverrides w = (w, false) := by
  cases ha : w.app with
  | none => simp [setupOverrides, ha]
  | some app => simp [setupOverrides, ha, h1, h2]

/-- C10 witness: a channel-less window with an application and original
entry points present. -/
theorem c10_no_channel_witness :
    (noChannelWin (some saveOnlyApp)).reactNativeAvailable = false ∧
    (noChannelWin (some saveOnlyApp)).parentAvailable = false ∧
    setupOverrides (noChannelWin (some saveOnlyApp)) =
      (noChannelWin (some saveOnlyApp), false) :=
  ⟨rfl, rfl, c10_no_channel_setup_noop (noChannelWin (some saveOnlyApp)) rfl rfl⟩

/-! ### C5: when does a `ready` envelope imply renderer initialization? -/

/-- C5 counterexample: the bridge module's window-load listener transmits
`ready` one second after window load without consulting the renderer, so
a `ready` envelope can cross the boundary while the renderer is not
initialized — the claim as stated is false. -/
theorem c5_counterexample_unconditional_ready :
    ¬ (∀ (w : Win) (ini : Bool) (e : EmbeddedEmitter),
        readyMsg ∈ transmittedMessages w ini e → ini = true) := by
  intro hcl
  have h := hcl (rnWin none) false EmbeddedEmitter.bridgeLoadTimer
    (by simp [transmittedMessages, rnWin, emittedMessages])
  exact Bool.false_ne_true h

/-- C5 amended: a `ready` envelope emitted by the injected-script
`setupPDFControls` site does imply that the renderer application and its
event bus exist at that point. -/
theorem c5_controls_ready_implies_initialized (w : Win) (ini : Bool)
    (h : readyMsg ∈ transmittedMessages w ini EmbeddedEmitter.controlsSetup) :
    ini = true := by
  cases ini with
  | true => rfl
  | false =>
    exfalso
    simp [transmittedMessages, emittedMessages] at h

/-- C5 witness: the controls-setup site does emit `ready` when the
renderer is initialized, and the amended implication applies there. -/
theorem c5_controls_ready_witness :
    readyMsg ∈ transmittedMessages (rnWin none) true EmbeddedEmitter.controlsSetup ∧
    true = true :=
  ⟨by simp [transmittedMessages, rnWin, emittedMessages],
   c5_controls_ready_implies_initialized (rnWin none) true
     (by simp [transmittedMessages, rnWin, emittedMessages])⟩

/-! ### C6: filename preference order -/

theorem includesPdf_nil : includesPdf [] = false := rfl

theorem initialFilename_eq_spec (url : Option (List Char)) :
    initialFilename url = filenameFromUrlSpec url := by
  cases url with
  | none => rfl
  | some u =>
    cases u with
    | nil => rfl
    | cons c0 cs0 =>
      simp only [initialFilename, filenameFromUrlSpec, List.isEmpty_cons,
        Bool.false_eq_true, if_false]
      cases hseg : (splitOnChar '/' (c0 :: cs0)).getLastD [] with
      | nil => simp [includesPdf_nil]
      | cons c1 cs1 => simp

/-- C6 counterexample: a present but empty metadata title is skipped by
the code (JS truthiness), so the claim as stated — title used whenever
present — fails at `emptyTitleApp`. -/
theorem c6_counterexample_empty_title :
    ¬ (∀ app : AppObj, getFilenameOf app = filenameClaimSpec (titleOf app) app.url) := by
  intro hcl
  exact absurd (hcl emptyTitleApp) (by decide)

/-- C6 amended: the filename preference order is: a present non-empty
title (with `.pdf` appended), else the last path segment of the source URL
when that segment contains `.pdf`, else the fixed `document.pdf`. -/
theorem c6_filename_preference_amended (app : AppObj) :
    getFilenameOf app = filenameAmendedSpec (titleOf app) app.url := by
  cases hp : app.pdfDocumentProperties with
  | none =>
    simp [getFilenameOf, titleOf, filenameAmendedSpec, hp, initialFilename_eq_spec]
  | some t? =>
    cases t? with
    | none =>
      simp [getFilenameOf, titleOf, filenameAmendedSpec, hp, initialFilename_eq_spec]
    | some t =>
      cases ht : t.isEmpty with
      | true =>
        simp [getFilenameOf, titleOf, filenameAmendedSpec, hp, ht,
          initialFilename_eq_spec]
      | false =>
        simp [getFilenameOf, titleOf, filenameAmendedSpec, hp, ht]

/-! ### C8: the polling fallback is bounded and gives up permanently -/

theorem pollTick_of_cleared {b : Bool} {s : PollState} (h : s.cleared = true) :
    pollTick b s = s := by
  simp [pollTick, h]

theorem runPoll_stable (r : Nat → Bool) (n : Nat)
    (h : (runPoll r n).cleared = true) :
    ∀ m, n ≤ m → runPoll r m = runPoll r n := by
  intro m hm
  induction m with
  | zero =>
    have hn : n = 0 := by omega
    rw [hn]
  | succ k ih =>
    rcases Nat.lt_or_ge n (k + 1) with hlt | hge
    · have hk : n ≤ k := by omega
      simp only [runPoll, ih hk]
      exact pollTick_of_cleared h
    · have hn : n = k + 1 := by omega
      rw [hn]

theorem runPoll_not_ready (r : Nat → Bool)
    (h : ∀ i, i < maxAttempts → r i = false) :
    ∀ k, k ≤ maxAttempts →
      runPoll r k = { attempts := k, cleared := false, setupRan := false } := by
  intro k
  induction k with
  | zero => intro _; rfl
  | succ j ih =>
    intro hk
    have hj : j ≤ maxAttempts := by omega
    have hrj : r j = false := h j (by omega)
    have hgt : ¬ (j + 1 > maxAttempts) := by
      simp only [maxAttempts] at hk ⊢
      omega
    simp only [runPoll, ih hj]
    simp [pollTick, hrj, hgt]

/-- C8: when the renderer never becomes ready during the polling window,
the poller performs its bounded 20 readiness attempts 500 ms apart, then
clears its interval on the next tick without ever running
`setupOverrides`, and stays in that state forever after. -/
theorem c8_polling_bounded_gives_up (r : Nat → Bool)
    (h : ∀ i, i < maxAttempts → r i = false) :
    runPoll r (maxAttempts + 1) =
      { attempts := maxAttempts + 1, cleared := true, setupRan := false } ∧
    (∀ m, maxAttempts + 1 ≤ m →
      runPoll r m = runPoll r (maxAttempts + 1)) ∧
    maxAttempts = 20 ∧ pollIntervalMs = 500 := by
  have h20 := runPoll_not_ready r h maxAttempts (le_refl _)
  have hstep : runPoll r (maxAttempts + 1) =
      { attempts := maxAttempts + 1, cleared := true, setupRan := false } := by
    have hunf : runPoll r (maxAttempts + 1) =
        pollTick (r maxAttempts) (runPoll r maxAttempts) := rfl
    rw [hunf, h20]
    simp [pollTick, maxAttempts]
  refine ⟨hstep, ?_, rfl, rfl⟩
  intro m hm
  exact runPoll_stable r (maxAttempts + 1) (by rw [hstep]) m hm

/-- C8 witness: the renderer never becomes ready. -/
theorem c8_polling_witness :
    (∀ i, i < maxAttempts → (fun _ => false) i = false) ∧
    runPoll (fun _ => false) (maxAttempts + 1) =
      { attempts := maxAttempts + 1, cleared := true, setupRan := false } :=
  ⟨fun _ _ => rfl,
   (c8_polling_bounded_gives_up (fun _ => false) (fun _ _ => rfl)).1⟩

/-! ### C9: the encoder reads through views and never writes -/

theorem encodeChunksFuel_fst : ∀ (fuel : Nat) (arr : Array Nat) (i : Nat),
    (encodeChunksFuel fuel arr i).1 = arr := by
  intro fuel
  induction fuel with
  | zero => intro arr i; rfl
  | succ f ih =>
    intro arr i
    rw [encodeChunksFuel]
    by_cases hlt : i < arr.size
    · simp [hlt, subarrayRead, ih]
    · simp [hlt]

theorem encodeChunksFuel_snd : ∀ (fuel : Nat) (arr : Array Nat) (i : Nat),
    arr.size - i < fuel →
    (encodeChunksFuel fuel arr i).2 = toB64Chunks (arr.toList.drop i) := by
  intro fuel
  induction fuel with
  | zero => intro arr i h; exact absurd h (Nat.not_lt_zero _)
  | succ f ih =>
    intro arr i hfuel
    rw [encodeChunksFuel]
    by_cases hlt : i < arr.size
    · have hc : 0 < chunkSize := by decide
      have hne : arr.toList.drop i ≠ [] := by
        intro hcon
        have hlen := congrArg List.length hcon
        simp only [List.length_drop, Array.length_toList, List.length_nil] at hlen
        omega
      obtain ⟨y, ys, hys⟩ := List.exists_cons_of_ne_nil hne
      simp only [hlt, if_pos, subarrayRead]
      rw [ih arr (i + chunkSize) (by omega),
        Array.toList_extract, Nat.add_sub_cancel_left, hys, toB64Chunks, ← hys,
        List.drop_drop]
    · have hdrop : arr.toList.drop i = [] :=
        List.drop_eq_nil_of_le (by rw [Array.length_toList]; omega)
      simp [hlt, hdrop, toB64Chunks]

/-- C9: transcoding never mutates the document byte buffer: after the
state-threaded `uint8ArrayToBase64` runs, the array is the same array with
every element unchanged, and the text produced agrees with the pure
encoder. -/
theorem c9_encoder_never_writes (arr : Array Nat) :
    (uint8ArrayToBase64St arr).1 = arr ∧
    (∀ k : Nat, ((uint8ArrayToBase64St arr).1).getD k 0 = arr.getD k 0) ∧
    (uint8ArrayToBase64St arr).2 = uint8ArrayToBase64 arr.toList := by
  have h1 : (uint8ArrayToBase64St arr).1 = arr := by
    simp [uint8ArrayToBase64St, encodeChunksFuel_fst]
  have h2 : (uint8ArrayToBase64St arr).2 = uint8ArrayToBase64 arr.toList := by
    have hs := encodeChunksFuel_snd (arr.size + 1) arr 0 (by omega)
    simp [uint8ArrayToBase64St, uint8ArrayToBase64, hs]
  exact ⟨h1, fun k => by rw [h1], h2⟩

end PDFBridge
